import Mathlib

/-!
Shallow embedding of `src/bendordslaw.py` (class `BenfordsLaw` and the
`run_safe_algorithm` driver) together with theorems checking the
natural-language specification against it.

Modelling conventions:
  * A file is represented by the list of lines that Python's file iteration
    yields (each `String` may or may not carry its trailing newline; the
    theorems below use explicit line lists).
  * Python floats are modelled as exact rationals (`ℚ`).
  * Python exceptions are modelled by the `PyErr` type; a method that can
    raise returns its post-state together with `Except PyErr r`, where `r`
    is the Python return value (`Option Bool` when the function can fall
    off the end and return `None`).
  * `scipy.stats.chi2_contingency` is an external library routine; its
    p-value is abstracted as a parameter `chi2p : List (List ℚ) → ℚ`
    mapping the contingency data to the p-value.
  * The regex class `\d` is modelled as the ASCII digits `0`–`9`.
-/

/-- Python exceptions that the analytically relevant code can raise.
`attributeError` is what `None.group()` raises when `re.search` finds no
digit in a line (the spec's ParseError); `zeroDivisionError` is raised by
`/` with a zero denominator (the spec's DivisionError); `stopIteration`
is raised by `next(f)` on an empty file; `invalidLine` mirrors the
`InvalidLine` exception class, which the source declares but never raises. -/
inductive PyErr where
  | attributeError : PyErr
  | zeroDivisionError : PyErr
  | stopIteration : PyErr
  | invalidLine : PyErr
deriving DecidableEq

deriving instance DecidableEq for Except

/-- The state of a `BenfordsLaw` object: its fields as set up by
`__init__` and mutated by the methods. -/
structure BenfordsLaw where
  file_path : String
  first_number_list : List ℕ
  observed_ratios : List ℚ
  EXPECTED_RATIO : ℚ
  BENFORDIAN_RATIOS : List ℚ
deriving DecidableEq

/-- The constructor `BenfordsLaw.__init__`: empty accumulator lists, the
constant expected ratio 1/9 and the documented Benford percentages. -/
def mkBenfordsLaw (file_path : String) : BenfordsLaw :=
  ⟨file_path, [], [], 1/9,
    [301/10, 176/10, 125/10, 97/10, 79/10, 67/10, 58/10, 51/10, 46/10]⟩

/-- Membership in the regex class `\s` (ASCII whitespace). -/
def isPySpace (c : Char) : Bool :=
  c = ' ' || c = '\t' || c = '\n' || c = '\r' || c = '\x0b' || c = '\x0c'

/-- Membership in the regex class `\d` (modelled as ASCII `0`–`9`). -/
def isDigitChar (c : Char) : Bool :=
  48 ≤ c.toNat && c.toNat ≤ 57

/-- Value of a digit character, Python `int(c)`. -/
def charVal (c : Char) : ℕ := c.toNat - 48

/-- Left-to-right, non-overlapping substitution performed by
`re.sub("\t+|\s{2,}|\s(?=\d)", "~~~", line)`: a maximal run of tabs, or a
maximal run of two or more whitespace characters, or a single whitespace
character directly before a digit (lookahead, not consumed), is replaced
by `~~~`; alternatives are tried in that order at each position.  The
scan consumes at least one character per step, so `fuel` bounds the
number of steps; it is called with `fuel` equal to the list length, which
always suffices (the `0, l => l` equation is unreachable then). -/
def pySubFuel : ℕ → List Char → List Char
  | _, [] => []
  | 0, l => l
  | fuel + 1, c :: rest =>
    if c = '\t' then
      '~' :: '~' :: '~' :: pySubFuel fuel (rest.dropWhile (fun x => x = '\t'))
    else if isPySpace c && (match rest with | [] => false | r :: _ => isPySpace r) then
      '~' :: '~' :: '~' :: pySubFuel fuel (rest.dropWhile isPySpace)
    else if isPySpace c && (match rest with | [] => false | r :: _ => isDigitChar r) then
      '~' :: '~' :: '~' :: pySubFuel fuel rest
    else
      c :: pySubFuel fuel rest

/-- The substitution applied to a whole line. -/
def pySubDelims (l : List Char) : List Char := pySubFuel l.length l

/-- `re.split("~~~", s)`: split on every occurrence of three tildes,
leftmost first, non-overlapping. -/
def pySplitTildes : List Char → List (List Char)
  | '~' :: '~' :: '~' :: rest => [] :: pySplitTildes rest
  | c :: rest =>
    match pySplitTildes rest with
    | [] => [[c]]
    | f :: fs => (c :: f) :: fs
  | [] => [[]]

/-- One line's column list in `get_numbers_from_data_tsv`: the whitespace
normalization followed by the split. -/
def splitLine (line : String) : List (List Char) :=
  pySplitTildes (pySubDelims line.toList)

/-- The lines the extraction loops actually visit: all of them, or all but
the first when the header is skipped. -/
def retainedLines (contents : List String) (ignore_first_line : Bool) : List String :=
  if ignore_first_line then contents.tail else contents

/-- `re.search("[\d]+", line)`: the first maximal run of digit characters
in the line, or `none` when the line has no digit. -/
def firstDigitRun (line : String) : Option (List Char) :=
  match line.toList.dropWhile (fun c => !(isDigitChar c)) with
  | [] => none
  | d :: rest => some ((d :: rest).takeWhile isDigitChar)

/-- The first loop of `get_numbers_from_data_regex`: collect the matched
digit run of every line into the local `all_numbers_list`, raising
`AttributeError` (from `None.group()`) at the first line with no digit. -/
def allNumbers : List String → Except PyErr (List (List Char))
  | [] => Except.ok []
  | line :: rest =>
    match firstDigitRun line with
    | none => Except.error PyErr.attributeError
    | some m =>
      match allNumbers rest with
      | Except.error e => Except.error e
      | Except.ok ms => Except.ok (m :: ms)

/-- `BenfordsLaw.get_numbers_from_data_regex`: optionally skip the header
(Python `next(f)`, which raises `StopIteration` on an empty file), scan
every remaining line for its first digit run, and only after the whole
file has been scanned append each run's first character, as an int, to
`self.first_number_list`.  Returns the post-state and the Python result
(`True` on success). -/
def get_numbers_from_data_regex (contents : List String) (ignore_first_line : Bool)
    (s : BenfordsLaw) : BenfordsLaw × Except PyErr Bool :=
  if ignore_first_line = true ∧ contents = [] then
    (s, Except.error PyErr.stopIteration)
  else
    match allNumbers (retainedLines contents ignore_first_line) with
    | Except.error e => (s, Except.error e)
    | Except.ok all_numbers_list =>
      (⟨s.file_path,
        s.first_number_list ++ all_numbers_list.map (fun data => charVal data.headI),
        s.observed_ratios,
        BenfordsLaw.EXPECTED_RATIO s,
        s.BENFORDIAN_RATIOS⟩,
       Except.ok true)

/-- `BenfordsLaw.get_numbers_from_data_tsv`: optionally skip the header
(`next(f)` raises `StopIteration` on an empty file), then normalize and
split every remaining line into the local `data_list`.  Nothing in the
`try` block raises `InvalidLine`, so the `except InvalidLine:` handler —
the only place that reads `data_list`, appends to
`self.first_number_list` and executes `return True` — is dead code: the
function falls off the end, returning Python `None` with
`self.first_number_list` untouched. -/
def get_numbers_from_data_tsv (contents : List String) (column_to_collect : ℕ)
    (ignore_first_line : Bool) (s : BenfordsLaw) : BenfordsLaw × Except PyErr (Option Bool) :=
  if ignore_first_line = true ∧ contents = [] then
    (s, Except.error PyErr.stopIteration)
  else
    let data_list := (retainedLines contents ignore_first_line).map splitLine
    let _unused := (data_list, column_to_collect)
    (s, Except.ok none)

/-- `BenfordsLaw.get_ratios`: for each digit 1–9 append
`Counter(first_number_list)[i] / len(first_number_list)` to
`self.observed_ratios`.  When the list is empty the first division is
`0 / 0`, which raises `ZeroDivisionError` before anything is appended. -/
def get_ratios (s : BenfordsLaw) : BenfordsLaw × Except PyErr Bool :=
  let data_length := s.first_number_list.length
  if data_length = 0 then
    (s, Except.error PyErr.zeroDivisionError)
  else
    (⟨s.file_path,
      s.first_number_list,
      s.observed_ratios ++
        (List.range' 1 9).map
          (fun i => ((s.first_number_list.count i : ℚ)) / ((data_length : ℚ))),
      BenfordsLaw.EXPECTED_RATIO s,
      s.BENFORDIAN_RATIOS⟩,
     Except.ok true)

/-- `BenfordsLaw.is_dataset_benfordian_chi_squared_accept_null`: build
`data = [observed_ratios, [EXPECTED_RATIO] * 9]`, obtain the p-value from
`chi2_contingency` (abstracted as `chi2p`), and return `False` when
`alpha >= p` (with `alpha = 0.05`), `True` otherwise. -/
def is_dataset_benfordian_chi_squared_accept_null (chi2p : List (List ℚ) → ℚ)
    (s : BenfordsLaw) : Bool :=
  let data := [s.observed_ratios, List.replicate 9 ( BenfordsLaw.EXPECTED_RATIO s)]
  let p := chi2p data
  let alpha : ℚ := 1/20
  if alpha ≥ p then false else true

/-- The `run_safe_algorithm` driver: a fresh `BenfordsLaw` object, regex
extraction, ratio computation, then the chi-squared verdict (`plot_data`
is pure rendering I/O and is omitted).  The interactive header question
is replaced by the boolean it produces; any exception propagates and
aborts the run. -/
def run_safe_algorithm (chi2p : List (List ℚ) → ℚ) (contents : List String)
    (top_line_is_headers : Bool) (file_path : String) : Except PyErr Bool :=
  match get_numbers_from_data_regex contents top_line_is_headers (mkBenfordsLaw file_path) with
  | (_, Except.error e) => Except.error e
  | (s1, Except.ok _) =>
    match get_ratios s1 with
    | (_, Except.error e) => Except.error e
    | (s2, Except.ok _) =>
      Except.ok (is_dataset_benfordian_chi_squared_accept_null chi2p s2)

/-- Extraction followed by ratio computation on a fresh object, projected
to the resulting `observed_ratios` vector (one analysis run of the safe
pipeline). -/
def extract_then_ratios (contents : List String) (ignore_first_line : Bool)
    (file_path : String) : Except PyErr (List ℚ) :=
  match get_numbers_from_data_regex contents ignore_first_line (mkBenfordsLaw file_path) with
  | (_, Except.error e) => Except.error e
  | (s1, Except.ok _) =>
    match get_ratios s1 with
    | (_, Except.error e) => Except.error e
    | (s2, Except.ok _) => Except.ok s2.observed_ratios

/-- A `chi2_contingency` stand-in whose p-value is exactly the
significance level 0.05. -/
def constAlphaP : List (List ℚ) → ℚ := fun _ => 1/20

/-- The digit run that `re.search("[\d]+", line).group()` yields on a
line that has a digit. -/
def runOf (line : String) : List Char :=
  (line.toList.dropWhile (fun c => !(isDigitChar c))).takeWhile isDigitChar

lemma firstDigitRun_eq_runOf (line : String) (h : firstDigitRun line ≠ none) :
    firstDigitRun line = some (runOf line) := by
  unfold firstDigitRun at *
  unfold runOf
  cases hd : line.toList.dropWhile (fun c => !(isDigitChar c)) with
  | nil => rw [hd] at h; exact absurd rfl h
  | cons d rest => rfl

lemma allNumbers_eq_error (lines : List String)
    (h : ∃ l ∈ lines, firstDigitRun l = none) :
    allNumbers lines = Except.error PyErr.attributeError := by
  induction lines with
  | nil => simp at h
  | cons line rest ih =>
    rcases h with ⟨l, hl, hnone⟩
    rcases List.mem_cons.mp hl with heq | hmem
    · subst heq
      unfold allNumbers
      rw [hnone]
    · unfold allNumbers
      cases hf : firstDigitRun line with
      | none => rfl
      | some m => rw [ih ⟨l, hmem, hnone⟩]

lemma allNumbers_eq_ok (lines : List String)
    (h : ∀ l ∈ lines, firstDigitRun l ≠ none) :
    allNumbers lines = Except.ok (lines.map runOf) := by
  induction lines with
  | nil => rfl
  | cons line rest ih =>
    unfold allNumbers
    rw [firstDigitRun_eq_runOf line (h line (List.mem_cons_self line rest))]
    rw [ih (fun l hl => h l (List.mem_cons_of_mem line hl))]
    rfl

lemma head_of_dropWhile_not_digit (l : List Char) (d : Char) (rest : List Char)
    (h : l.dropWhile (fun c => !(isDigitChar c)) = d :: rest) :
    isDigitChar d = true := by
  induction l with
  | nil => simp [List.dropWhile] at h
  | cons a t ih =>
    by_cases ha : isDigitChar a = true
    · rw [List.dropWhile_cons_of_neg (by simp [ha])] at h
      cases h
      exact ha
    · rw [List.dropWhile_cons_of_pos (by simp [ha])] at h
      exact ih h

lemma runOf_headI_digit (line : String) (h : firstDigitRun line ≠ none) :
    isDigitChar ((runOf line).headI) = true := by
  unfold firstDigitRun at h
  unfold runOf
  cases hd : line.toList.dropWhile (fun c => !(isDigitChar c)) with
  | nil => rw [hd] at h; exact absurd rfl h
  | cons d rest =>
    have hdig : isDigitChar d = true := head_of_dropWhile_not_digit _ _ _ hd
    rw [List.takeWhile_cons_of_pos hdig]
    exact hdig

lemma charVal_le_nine (c : Char) (h : isDigitChar c = true) : charVal c ≤ 9 := by
  unfold isDigitChar at h
  unfold charVal
  have h2 := (Bool.and_eq_true _ _).mp h
  have hle : c.toNat ≤ 57 := by
    have := h2.2
    simpa using this
  omega

lemma list_sum_map_div {α : Type} (l : List α) (g : α → ℚ) (c : ℚ) :
    (l.map (fun x => g x / c)).sum = (l.map g).sum / c := by
  induction l with
  | nil => simp
  | cons a t ih => simp [ih, add_div]

lemma list_sum_map_add {α : Type} (l : List α) (f g : α → ℕ) :
    (l.map (fun x => f x + g x)).sum = (l.map f).sum + (l.map g).sum := by
  induction l with
  | nil => simp
  | cons a t ih => simp [ih]; omega

lemma indicator_range9_sum (a : ℕ) (h1 : 1 ≤ a) (h2 : a ≤ 9) :
    ((List.range' 1 9).map (fun i => if (a == i) = true then (1 : ℕ) else 0)).sum = 1 := by
  interval_cases a <;> decide

lemma count_range9_sum (l : List ℕ) (h : ∀ x ∈ l, 1 ≤ x ∧ x ≤ 9) :
    ((List.range' 1 9).map (fun i => l.count i)).sum = l.length := by
  induction l with
  | nil => simp
  | cons a t ih =>
    have ha := h a (List.mem_cons_self a t)
    have ih2 := ih (fun x hx => h x (List.mem_cons_of_mem a hx))
    have hcc : ∀ i : ℕ, (a :: t).count i = t.count i + if (a == i) = true then 1 else 0 := by
      intro i
      exact List.count_cons i a t
    calc ((List.range' 1 9).map (fun i => (a :: t).count i)).sum
        = ((List.range' 1 9).map
            (fun i => t.count i + if (a == i) = true then 1 else 0)).sum := by
          simp only [hcc]
      _ = ((List.range' 1 9).map (fun i => t.count i)).sum +
            ((List.range' 1 9).map (fun i => if (a == i) = true then (1 : ℕ) else 0)).sum :=
          list_sum_map_add _ _ _
      _ = t.length + 1 := by rw [ih2, indicator_range9_sum a ha.1 ha.2]
      _ = (a :: t).length := by simp

/-- Claim C1 (code-bug evidence): on a well-formed tab-separated file —
header "name\tvalue" plus data lines "a\t123" and "b\t456", each of which
splits into two columns, so the requested column 1 exists — column-based
extraction with the header skipped leaves `first_number_list` empty and
returns Python `None`, instead of succeeding with the 2-element leading
digit sequence the claim requires: the loop that would populate
`first_number_list` sits inside the dead `except InvalidLine:` handler. -/
theorem tsv_wellformed_yields_no_sequence :
    (splitLine ("a\t123")).length = 2 ∧ (splitLine ("b\t456")).length = 2 ∧
    get_numbers_from_data_tsv ["name\tvalue", "a\t123", "b\t456"] 1 true
        (mkBenfordsLaw ("data.tsv"))
      = (mkBenfordsLaw ("data.tsv"), Except.ok none) ∧
    (mkBenfordsLaw ("data.tsv")).first_number_list = [] :=
  ⟨by decide, by decide, rfl, rfl⟩

/-- Claim C3 (code-bug evidence): on a file whose only line cannot be
split into enough columns for the requested index 1 (it splits into a
single column), column-based extraction raises no error at all — the
`InvalidLine` exception is never raised by anything, so no `FormatError`
with a line number is ever reported; the function silently returns
Python `None`. -/
theorem tsv_malformed_raises_no_error :
    (splitLine ("onlyonecolumn")).length = 1 ∧
    get_numbers_from_data_tsv ["onlyonecolumn"] 1 false (mkBenfordsLaw ("f"))
      = (mkBenfordsLaw ("f"), Except.ok none) :=
  ⟨by decide, rfl⟩

/-- Claim C2 counterexample: with a chi-squared p-value exactly equal to
α = 0.05, the verdict is `false`, not `true` as the claim states (`alpha
>= p` holds, so the code returns `False`). -/
theorem accept_null_false_at_exact_alpha :
    constAlphaP [(mkBenfordsLaw ("f")).observed_ratios,
        List.replicate 9 ( BenfordsLaw.EXPECTED_RATIO (mkBenfordsLaw ("f")))] = 1/20 ∧
    is_dataset_benfordian_chi_squared_accept_null constAlphaP (mkBenfordsLaw ("f")) = false := by
  constructor
  · rfl
  · simp [is_dataset_benfordian_chi_squared_accept_null, constAlphaP]

/-- Claim C2 as amended: the conformity test returns `true` if and only
if the chi-squared p-value is strictly greater than α = 0.05, and `false`
if and only if p ≤ α; in particular a p-value of exactly 0.05 yields
verdict `false`. -/
theorem accept_null_iff_p_gt_alpha (chi2p : List (List ℚ) → ℚ) (s : BenfordsLaw) :
    (is_dataset_benfordian_chi_squared_accept_null chi2p s = true ↔
      1/20 < chi2p [s.observed_ratios, List.replicate 9 ( BenfordsLaw.EXPECTED_RATIO s)]) ∧
    (is_dataset_benfordian_chi_squared_accept_null chi2p s = false ↔
      chi2p [s.observed_ratios, List.replicate 9 ( BenfordsLaw.EXPECTED_RATIO s)] ≤ 1/20) := by
  unfold is_dataset_benfordian_chi_squared_accept_null
  by_cases h :
      (1/20 : ℚ) ≥ chi2p [s.observed_ratios, List.replicate 9 ( BenfordsLaw.EXPECTED_RATIO s)]
  · rw [if_pos h]
    rw [ge_iff_le] at h
    constructor
    · constructor
      · intro hh
        exact absurd hh (by simp)
      · intro hh
        exact absurd h (not_le.mpr hh)
    · constructor
      · intro _
        exact h
      · intro _
        rfl
  · rw [if_neg h]
    rw [ge_iff_le, not_le] at h
    constructor
    · constructor
      · intro _
        exact h
      · intro _
        rfl
    · constructor
      · intro hh
        exact absurd hh (by simp)
      · intro hh
        exact absurd hh (not_le.mpr h)

/-- Claim C4: when some retained line contains no digit, pattern-based
extraction fails with the spec's ParseError (the `AttributeError` raised
by `None.group()`), and the failure propagates through
`run_safe_algorithm`, aborting the run; when every retained line does
contain a digit, each extracted element is the value of the first
character of the first maximal digit run of its line. -/
theorem regex_no_digit_parse_error (chi2p : List (List ℚ) → ℚ)
    (contents : List String) (skip : Bool) (file_path : String) (s : BenfordsLaw)
    (h : ¬ (skip = true ∧ contents = [])) :
    ((∃ l ∈ retainedLines contents skip, firstDigitRun l = none) →
      (get_numbers_from_data_regex contents skip s).2 = Except.error PyErr.attributeError ∧
      run_safe_algorithm chi2p contents skip file_path = Except.error PyErr.attributeError) ∧
    ((∀ l ∈ retainedLines contents skip, firstDigitRun l ≠ none) →
      ((get_numbers_from_data_regex contents skip s).1).first_number_list
        = s.first_number_list ++
            (retainedLines contents skip).map (fun l => charVal ((runOf l).headI))) := by
  constructor
  · intro hex
    have herr := allNumbers_eq_error _ hex
    constructor
    · unfold get_numbers_from_data_regex
      rw [if_neg h, herr]
    · unfold run_safe_algorithm get_numbers_from_data_regex
      rw [if_neg h, herr]
  · intro hall
    have hok := allNumbers_eq_ok _ hall
    unfold get_numbers_from_data_regex
    rw [if_neg h, hok]
    simp [List.map_map, Function.comp]

theorem regex_no_digit_parse_error_witness :
    (¬ ((false : Bool) = true ∧ (["abc"] : List String) = [])) ∧
    ((get_numbers_from_data_regex ["abc"] false (mkBenfordsLaw ("f"))).2
        = Except.error PyErr.attributeError ∧
      run_safe_algorithm constAlphaP ["abc"] false ("f")
        = Except.error PyErr.attributeError) :=
  ⟨by decide,
    (regex_no_digit_parse_error constAlphaP ["abc"] false ("f") (mkBenfordsLaw ("f"))
        (by decide)).1 ⟨"abc", by decide, by decide⟩⟩

lemma allNumbers_ok_inv (lines : List String) (ms : List (List Char))
    (h : allNumbers lines = Except.ok ms) :
    (∀ l ∈ lines, firstDigitRun l ≠ none) ∧ ms = lines.map runOf := by
  induction lines generalizing ms with
  | nil =>
    unfold allNumbers at h
    injection h with h2
    subst h2
    simp
  | cons line rest ih =>
    unfold allNumbers at h
    cases hf : firstDigitRun line with
    | none =>
      rw [hf] at h
      exact absurd h (by simp)
    | some m =>
      rw [hf] at h
      cases har : allNumbers rest with
      | error e =>
        rw [har] at h
        exact absurd h (by simp)
      | ok ms2 =>
        rw [har] at h
        injection h with h2
        subst h2
        obtain ⟨hall, hmap⟩ := ih ms2 har
        constructor
        · intro l hl
          rcases List.mem_cons.mp hl with heq | hmem
          · subst heq
            rw [hf]
            simp
          · exact hall l hmem
        · rw [List.map_cons, ← hmap]
          have hm : m = runOf line := by
            have := firstDigitRun_eq_runOf line (by rw [hf]; simp)
            rw [hf] at this
            injection this
          rw [hm]

/-- Claim C7 counterexample: pattern-based extraction on the single line
"0" succeeds (returns `True`) and produces the leading digit 0, which
does not lie in [1,9]: a leading digit of zero is produced. -/
theorem regex_zero_leading_digit :
    (get_numbers_from_data_regex ["0"] false (mkBenfordsLaw ("f"))).2 = Except.ok true ∧
    ((get_numbers_from_data_regex ["0"] false (mkBenfordsLaw ("f"))).1).first_number_list
      = [0] ∧
    ¬ (1 ≤ (0 : ℕ)) :=
  ⟨by decide, by decide, by decide⟩

/-- Claim C7 as amended: on every file on which pattern-based extraction
succeeds (starting from a fresh object), every element of the resulting
`first_number_list` is a decimal digit, i.e. lies in [0,9]; a leading
digit of zero is produced exactly when the first digit character of a
line is `0`. -/
theorem regex_elements_le_nine (contents : List String) (skip : Bool) (s : BenfordsLaw)
    (hok : (get_numbers_from_data_regex contents skip s).2 = Except.ok true)
    (hfresh : s.first_number_list = []) :
    ∀ d ∈ ((get_numbers_from_data_regex contents skip s).1).first_number_list, d ≤ 9 := by
  by_cases hc : skip = true ∧ contents = []
  · unfold get_numbers_from_data_regex at hok
    rw [if_pos hc] at hok
    exact absurd hok (by simp)
  · unfold get_numbers_from_data_regex at *
    rw [if_neg hc] at *
    cases han : allNumbers (retainedLines contents skip) with
    | error e =>
      rw [han] at hok
      exact absurd hok (by simp)
    | ok ms =>
      intro d hd
      simp only [hfresh, List.nil_append, List.mem_map] at hd
      obtain ⟨m, hm, hval⟩ := hd
      obtain ⟨hall, hmap⟩ := allNumbers_ok_inv _ _ han
      subst hmap
      obtain ⟨l, hl, hrun⟩ := List.mem_map.mp hm
      subst hrun
      subst hval
      exact charVal_le_nine _ (runOf_headI_digit l (hall l hl))

theorem regex_elements_le_nine_witness :
    (get_numbers_from_data_regex ["123"] false (mkBenfordsLaw ("f"))).2 = Except.ok true ∧
    (1 : ℕ) ≤ 9 :=
  ⟨by decide,
    regex_elements_le_nine ["123"] false (mkBenfordsLaw ("f")) (by decide) rfl 1 (by decide)⟩

/-- Claim C10: pattern-based extraction is atomic: whenever it fails
(with any exception), the `BenfordsLaw` state — in particular
`first_number_list` — is exactly what it was before the call, because
every append to `first_number_list` happens in the second loop, after the
whole file has been scanned without error. -/
theorem regex_failure_preserves_state (contents : List String) (skip : Bool)
    (s : BenfordsLaw) (e : PyErr)
    (h : (get_numbers_from_data_regex contents skip s).2 = Except.error e) :
    (get_numbers_from_data_regex contents skip s).1 = s := by
  unfold get_numbers_from_data_regex at *
  by_cases hc : skip = true ∧ contents = []
  · rw [if_pos hc]
  · rw [if_neg hc] at *
    cases han : allNumbers (retainedLines contents skip) with
    | error e2 => rfl
    | ok ms =>
      rw [han] at h
      exact absurd h (by simp)

theorem regex_failure_preserves_state_witness :
    (get_numbers_from_data_regex ["abc"] false (mkBenfordsLaw ("f"))).2
      = Except.error PyErr.attributeError ∧
    (get_numbers_from_data_regex ["abc"] false (mkBenfordsLaw ("f"))).1
      = mkBenfordsLaw ("f") :=
  ⟨by decide,
    regex_failure_preserves_state ["abc"] false (mkBenfordsLaw ("f"))
      PyErr.attributeError (by decide)⟩

/-- Claim C5: for a non-empty leading-digit sequence whose elements all
lie in [1,9], `get_ratios` (run on a fresh object, whose
`observed_ratios` starts empty) produces exactly nine entries, the entry
for digit d (position d−1) equals count(d) divided by the sequence
length, and the nine entries sum to exactly 1 in rational arithmetic. -/
theorem get_ratios_nonempty_entries_sum_one (s : BenfordsLaw)
    (hne : s.first_number_list ≠ [])
    (hdig : ∀ x ∈ s.first_number_list, 1 ≤ x ∧ x ≤ 9)
    (hfresh : s.observed_ratios = []) :
    ((get_ratios s).1).observed_ratios.length = 9 ∧
    (∀ d : ℕ, 1 ≤ d → d ≤ 9 →
      ((get_ratios s).1).observed_ratios.get? (d - 1)
        = some (((s.first_number_list.count d : ℚ))
            / ((s.first_number_list.length : ℚ)))) ∧
    ((get_ratios s).1).observed_ratios.sum = 1 := by
  have hlen : s.first_number_list.length ≠ 0 := by
    simpa [List.length_eq_zero] using hne
  unfold get_ratios
  rw [if_neg hlen]
  simp only [hfresh, List.nil_append]
  refine ⟨by simp, ?_, ?_⟩
  · intro d h1 h2
    interval_cases d <;> rfl
  · rw [list_sum_map_div (List.range' 1 9)
        (fun i => ((s.first_number_list.count i : ℚ))) ((s.first_number_list.length : ℚ))]
    have hcast : ((List.range' 1 9).map
          (fun i => ((s.first_number_list.count i : ℚ)))).sum
        = ((((List.range' 1 9).map (fun i => s.first_number_list.count i)).sum : ℕ) : ℚ) := by
      have h9 : List.range' 1 9 = [1, 2, 3, 4, 5, 6, 7, 8, 9] := rfl
      rw [h9]
      simp only [List.map_cons, List.map_nil, List.sum_cons, List.sum_nil]
      push_cast
      ring
    rw [hcast, count_range9_sum s.first_number_list hdig]
    exact div_self (Nat.cast_ne_zero.mpr hlen)

def c5state : BenfordsLaw := ⟨"f", [1, 4, 7], [], 1/9, []⟩

theorem get_ratios_nonempty_entries_sum_one_witness :
    c5state.first_number_list ≠ [] ∧
    ((get_ratios c5state).1).observed_ratios.length = 9 ∧
    ((get_ratios c5state).1).observed_ratios.sum = 1 :=
  ⟨by decide,
    (get_ratios_nonempty_entries_sum_one c5state (by decide) (by decide) rfl).1,
    (get_ratios_nonempty_entries_sum_one c5state (by decide) (by decide) rfl).2.2⟩

/-- Claim C6: on an empty leading-digit sequence `get_ratios` fails with
the divide-by-zero condition (Python raises `ZeroDivisionError` when the
zero denominator is checked, before any quotient exists or any ratio is
appended — the post-state is unchanged, no vector of NaNs or zeros is
produced), and in the full pipeline on an empty file the error aborts the
run before the chi-squared conformity test is reached. -/
theorem get_ratios_empty_division_error (chi2p : List (List ℚ) → ℚ)
    (file_path : String) (s : BenfordsLaw)
    (h : s.first_number_list = []) :
    get_ratios s = (s, Except.error PyErr.zeroDivisionError) ∧
    run_safe_algorithm chi2p [] false file_path = Except.error PyErr.zeroDivisionError := by
  constructor
  · unfold get_ratios
    rw [h]
    rfl
  · rfl

theorem get_ratios_empty_division_error_witness :
    (mkBenfordsLaw ("g")).first_number_list = [] ∧
    (get_ratios (mkBenfordsLaw ("g")) = (mkBenfordsLaw ("g"), Except.error PyErr.zeroDivisionError) ∧
      run_safe_algorithm constAlphaP [] false ("f") = Except.error PyErr.zeroDivisionError) :=
  ⟨rfl, get_ratios_empty_division_error constAlphaP ("f") (mkBenfordsLaw ("g")) rfl⟩

/-- Claim C8: the chi-squared verdict does not depend on
`BENFORDIAN_RATIOS`: any two states that agree on `observed_ratios` (and
carry the `__init__` value 1/9 of `EXPECTED_RATIO`) receive the same
verdict, whatever the p-value function computes, because the contingency
data is built only from `observed_ratios` and the broadcast
`EXPECTED_RATIO`. -/
theorem verdict_independent_of_benfordian_ratios (chi2p : List (List ℚ) → ℚ)
    (s1 s2 : BenfordsLaw)
    (hobs : s1.observed_ratios = s2.observed_ratios)
    (he1 : BenfordsLaw.EXPECTED_RATIO s1 = 1/9)
    (he2 : BenfordsLaw.EXPECTED_RATIO s2 = 1/9) :
    is_dataset_benfordian_chi_squared_accept_null chi2p s1
      = is_dataset_benfordian_chi_squared_accept_null chi2p s2 := by
  unfold is_dataset_benfordian_chi_squared_accept_null
  rw [hobs, he1, he2]

def c8other : BenfordsLaw := ⟨"f", [], [], 1/9, []⟩

theorem verdict_independent_of_benfordian_ratios_witness :
    (mkBenfordsLaw ("f")).observed_ratios = c8other.observed_ratios ∧
    ¬ ((mkBenfordsLaw ("f")).BENFORDIAN_RATIOS = c8other.BENFORDIAN_RATIOS) ∧
    is_dataset_benfordian_chi_squared_accept_null constAlphaP (mkBenfordsLaw ("f"))
      = is_dataset_benfordian_chi_squared_accept_null constAlphaP c8other :=
  ⟨rfl,
    fun hcontra => by
      have hlen := congrArg List.length hcontra
      simp [mkBenfordsLaw, c8other] at hlen,
    verdict_independent_of_benfordian_ratios constAlphaP (mkBenfordsLaw ("f")) c8other
      rfl rfl rfl⟩

/-- Claim C9: re-running extraction followed by ratio computation on the
same file contents (a fresh `BenfordsLaw` object per analysis run, as the
program's drivers construct; the two runs may even use different path
strings for the same file) yields a bit-identical `observed_ratios`
vector. -/
theorem rerun_extract_then_ratios_identical (contents : List String) (skip : Bool)
    (p1 p2 : String) :
    extract_then_ratios contents skip p1 = extract_then_ratios contents skip p2 := by
  unfold extract_then_ratios get_numbers_from_data_regex
  by_cases hc : skip = true ∧ contents = []
  · rw [if_pos hc, if_pos hc]
  · rw [if_neg hc, if_neg hc]
    cases han : allNumbers (retainedLines contents skip) with
    | error e => rfl
    | ok ms =>
      simp only [mkBenfordsLaw]
      unfold get_ratios
      by_cases hl : (([] : List ℕ) ++ ms.map (fun data => charVal data.headI)).length = 0
      · rw [if_pos hl, if_pos hl]
      · rw [if_neg hl, if_neg hl]
